import Mathlib

/-!
Verification of `MultivariableFunctionCalculator.py`.

The program searches for a bivariate polynomial with prescribed maximum,
minimum and saddle points.  We shallowly embed it over exact rationals:

* sympy expressions in `x` and `y` become bivariate polynomials represented
  as `List (List ℚ)` — the outer index is the power of `x`, each inner list
  is a polynomial in `y` by coefficient list;
* `integrate`/`diff` become the standard coefficient-list antiderivative and
  derivative; `evalf(subs=…)` becomes exact evaluation at rational points;
* the free parameter symbols `A`, `B` are handled by parameterising every
  derived expression by the rationals `a`, `b` substituted for them (all
  operations used — differentiation, integration, addition, multiplication,
  evaluation — commute with that substitution, so this is faithful to the
  source, which keeps `A`, `B` symbolic and substitutes inside the loop);
* printing the pandas `DataFrame` becomes returning the rendered rows as a
  second component of `solve`'s result.
-/

namespace MFC

/-- Univariate polynomial by coefficient list, index = degree. -/
abbrev Poly := List ℚ

/-- Bivariate polynomial: outer index = power of `x`, rows = polynomials in `y`. -/
abbrev Biv := List Poly

def polyAdd : Poly → Poly → Poly
  | [], q => q
  | p, [] => p
  | a :: p, b :: q => (a + b) :: polyAdd p q

def polyNeg (p : Poly) : Poly := p.map (fun c => -c)

def polyMul : Poly → Poly → Poly
  | [], _ => []
  | a :: p, q => polyAdd (q.map (fun c => a * c)) (0 :: polyMul p q)

/-- Coefficients of the derivative, `k` being the exponent of the first entry. -/
def polyDerivAux (k : ℚ) : Poly → Poly
  | [] => []
  | c :: p => k * c :: polyDerivAux (k + 1) p

/-- Derivative of a univariate polynomial (sympy `diff`). -/
def polyDeriv (p : Poly) : Poly := polyDerivAux 1 (p.drop 1)

def polyIntAux (k : ℚ) : Poly → Poly
  | [] => []
  | c :: p => c / k :: polyIntAux (k + 1) p

/-- Antiderivative with zero constant of integration (sympy `integrate`). -/
def polyIntegrate (p : Poly) : Poly := 0 :: polyIntAux 1 p

/-- Horner evaluation. -/
def polyEval (p : Poly) (v : ℚ) : ℚ := p.foldr (fun c acc => c + v * acc) 0

def bivAdd : Biv → Biv → Biv
  | [], q => q
  | p, [] => p
  | r :: p, s :: q => polyAdd r s :: bivAdd p q

def bivNeg (p : Biv) : Biv := p.map polyNeg

def bivSub (p q : Biv) : Biv := bivAdd p (bivNeg q)

def bivMul : Biv → Biv → Biv
  | [], _ => []
  | r :: p, q => bivAdd (q.map (polyMul r)) ([] :: bivMul p q)

def bivDiffXAux (k : ℚ) : Biv → Biv
  | [] => []
  | r :: p => r.map (fun c => k * c) :: bivDiffXAux (k + 1) p

/-- `∂/∂x` on the bivariate representation. -/
def bivDiffX (p : Biv) : Biv := bivDiffXAux 1 (p.drop 1)

/-- `∂/∂y` on the bivariate representation. -/
def bivDiffY (p : Biv) : Biv := p.map polyDeriv

def bivIntXAux (k : ℚ) : Biv → Biv
  | [] => []
  | r :: p => r.map (fun c => c / k) :: bivIntXAux (k + 1) p

/-- Antiderivative in `x`, zero constant of integration. -/
def bivIntX (p : Biv) : Biv := [] :: bivIntXAux 1 p

/-- Antiderivative in `y`, zero constant of integration. -/
def bivIntY (p : Biv) : Biv := p.map polyIntegrate

/-- Exact evaluation at the point `(x, y)` (sympy `evalf(subs=…)`). -/
def bivEval (p : Biv) (x y : ℚ) : ℚ := polyEval (p.map (fun row => polyEval row y)) x

/-- Constant expression. -/
def bivC (c : ℚ) : Biv := [[c]]

/-- The variable symbol `x`. -/
def bivX : Biv := [[], [1]]

/-- The variable symbol `y`. -/
def bivY : Biv := [[0, 1]]

/-! ### The candidate enumerator `get_values` -/

/-- Python `range(m)` as a list of integers. -/
def rangeList (m : ℕ) : List ℤ := (List.range m).map (fun (i : ℕ) => (i : ℤ))

/-- Python `range(-1, -m - 1, -1)`, i.e. `-1, -2, …, -m`. -/
def negRangeList (m : ℕ) : List ℤ := (List.range m).map (fun (i : ℕ) => -(i : ℤ) - 1)

/-- `chain(*zip(range(n + 1), range(-1, -n - 1, -1)), [n])`: interleave the two
ranges (`zip` truncates at the shorter) and append `n`. -/
def interleaved (n : ℕ) : List ℤ :=
  ((rangeList (n + 1)).zip (negRangeList n)).flatMap (fun p => [p.1, p.2]) ++ [(n : ℤ)]

/-- `get_values(n)`: empty for `n < 0`, otherwise `product(numbers, repeat=2)`
in row-major order. -/
def get_values (n : ℤ) : List (ℤ × ℤ) :=
  if n < 0 then []
  else (interleaved n.toNat).flatMap (fun a => (interleaved n.toNat).map (fun b => (a, b)))

/-! ### The calculator -/

/-- State of a constructed `FunctionCalculator`: the unpacked coordinates of the
three stationary points and the diagnostic flag. -/
structure FunctionCalculator where
  max_x : ℚ
  max_y : ℚ
  min_x : ℚ
  min_y : ℚ
  saddle_x : ℚ
  saddle_y : ℚ
  print_steps : Bool
  deriving DecidableEq

/-- Error kind of the constructor: tuple unpacking failed (wrong arity). -/
inductive InitError where
  | invalidArgument : InitError
  deriving DecidableEq

/-- Python tuple unpacking `a, b = t`: succeeds exactly on 2-element tuples. -/
def unpack2 (t : List ℚ) : Except InitError (ℚ × ℚ) :=
  match t with
  | [a, b] => Except.ok (a, b)
  | _ => Except.error InitError.invalidArgument

/-- `FunctionCalculator.__init__`: unpack the three points in order, then store
all fields; any unpacking failure propagates immediately. -/
def FunctionCalculator.init (maximum minimum saddle : List ℚ) (print_steps : Bool) :
    Except InitError FunctionCalculator := do
  let m ← unpack2 maximum
  let mn ← unpack2 minimum
  let s ← unpack2 saddle
  Except.ok (FunctionCalculator.mk m.1 m.2 mn.1 mn.2 s.1 s.2 print_steps)

/-- `f_x = A*x*x - A*x*max_x`, with `a` substituted for the symbol `A`. -/
def f_x (c : FunctionCalculator) (a : ℚ) : Biv :=
  bivSub (bivMul (bivMul (bivC a) bivX) bivX) (bivMul (bivMul (bivC a) bivX) (bivC c.max_x))

/-- `f_y = B*y*y - B*y*min_y`, with `b` substituted for the symbol `B`. -/
def f_y (c : FunctionCalculator) (b : ℚ) : Biv :=
  bivSub (bivMul (bivMul (bivC b) bivY) bivY) (bivMul (bivMul (bivC b) bivY) (bivC c.min_y))

/-- `general_form = integrate(f_y, y) + integrate(f_x, x)`. -/
def general_form (c : FunctionCalculator) (a b : ℚ) : Biv :=
  bivAdd (bivIntY (f_y c b)) (bivIntX (f_x c a))

/-- `f_xx = f_x.diff(x)`. -/
def f_xx (c : FunctionCalculator) (a : ℚ) : Biv := bivDiffX (f_x c a)

/-- `f_yy = f_y.diff(y)`. -/
def f_yy (c : FunctionCalculator) (b : ℚ) : Biv := bivDiffY (f_y c b)

/-- `f_xy = f_x.diff(y)`. -/
def f_xy (c : FunctionCalculator) (a : ℚ) : Biv := bivDiffY (f_x c a)

/-- `d_xy = f_xx * f_yy - f_xy ** 2`. -/
def d_xy (c : FunctionCalculator) (a b : ℚ) : Biv :=
  bivSub (bivMul (f_xx c a) (f_yy c b)) (bivMul (f_xy c a) (f_xy c a))

/-! ### Evaluation at the stationary points

The source first substitutes the point coordinates into `f_xx` and `d_xy`
(`evaluate_derivative_at_stationary_points`), caching six expressions that
still contain `A` and `B`; the loop then substitutes the candidate `a, b`.
Parameterising by `a, b` and evaluating at the point performs both
substitutions at once. -/

def f_xx_at_max (c : FunctionCalculator) (a b : ℚ) : ℚ :=
  bivEval (f_xx c a) c.max_x c.max_y

def f_xx_at_min (c : FunctionCalculator) (a b : ℚ) : ℚ :=
  bivEval (f_xx c a) c.min_x c.min_y

def f_xx_at_saddle (c : FunctionCalculator) (a b : ℚ) : ℚ :=
  bivEval (f_xx c a) c.saddle_x c.saddle_y

def d_at_max (c : FunctionCalculator) (a b : ℚ) : ℚ :=
  bivEval (d_xy c a b) c.max_x c.max_y

def d_at_min (c : FunctionCalculator) (a b : ℚ) : ℚ :=
  bivEval (d_xy c a b) c.min_x c.min_y

def d_at_saddle (c : FunctionCalculator) (a b : ℚ) : ℚ :=
  bivEval (d_xy c a b) c.saddle_x c.saddle_y

/-- The rendered diagnostic table of `evaluate_derivative_at_stationary_points`
(one row per stationary point), produced only when `print_steps` is set. -/
def stepTableRows (c : FunctionCalculator) : List (List String) :=
  [ [ "(" ++ toString c.max_x ++ ", " ++ toString c.max_y ++ ")", "Maximum",
      "f_xx < 0", "f_xx*f_yy-f_xy^2 > 0" ],
    [ "(" ++ toString c.min_x ++ ", " ++ toString c.min_y ++ ")", "Minimum",
      "f_xx > 0", "f_xx*f_yy-f_xy^2 > 0" ],
    [ "(" ++ toString c.saddle_x ++ ", " ++ toString c.saddle_y ++ ")", "Saddle",
      "f_xx != 0", "f_xx*f_yy-f_xy^2 < 0" ] ]

/-- Output side of `evaluate_derivative_at_stationary_points`: the printed rows
when `print_steps` is set, nothing otherwise. -/
def evaluate_derivative_at_stationary_points (c : FunctionCalculator) : List (List String) :=
  if c.print_steps then stepTableRows c else []

/-- The list `evaluated_funcs` of the loop body, conjoined (`all`): the six
classification predicates at the candidate `(a, b)`. -/
def evaluated_funcs (c : FunctionCalculator) (a b : ℚ) : Bool :=
  decide (f_xx_at_max c a b < 0) &&
  decide (f_xx_at_min c a b > 0) &&
  decide (f_xx_at_saddle c a b ≠ 0) &&
  decide (d_at_max c a b > 0) &&
  decide (d_at_min c a b > 0) &&
  decide (d_at_saddle c a b < 0)

/-- Result of `solve`: the accepted `general_form` with `A, B` substituted, or
the sentinel string `"Solution could not be found"`. -/
inductive Solution where
  | found : Biv → Solution
  | notFound : Solution
  deriving DecidableEq

/-- The `for`-loop of `solve`: first-match search over the candidate list. -/
def solveAux (c : FunctionCalculator) : List (ℤ × ℤ) → Solution
  | [] => Solution.notFound
  | (a, b) :: rest =>
    if evaluated_funcs c (a : ℚ) (b : ℚ) then
      Solution.found (general_form c (a : ℚ) (b : ℚ))
    else solveAux c rest

/-- `solve(n)`: the returned Solution together with the diagnostic rows printed
before the loop. -/
def solve (c : FunctionCalculator) (n : ℤ) : Solution × List (List String) :=
  (solveAux c (get_values n), evaluate_derivative_at_stationary_points c)

/-- The calculator of `example.py`: `maximum=(25, 15)`, `minimum=(-5, -12)`,
`saddle=(0, 0)`. -/
def exampleCalc : FunctionCalculator :=
  FunctionCalculator.mk 25 15 (-5) (-12) 0 0 false

/-- A calculator whose maximum has `x`-coordinate `0`. -/
def zeroMaxCalc : FunctionCalculator :=
  FunctionCalculator.mk 0 7 (-3) (-4) 1 2 false

/-! ### Closed forms of the derived expressions -/

lemma fx_eval (c : FunctionCalculator) (a x y : ℚ) :
    bivEval (f_x c a) x y = a * x ^ 2 - a * x * c.max_x := by
  simp [f_x, bivSub, bivMul, bivAdd, bivNeg, bivC, bivX,
    polyMul, polyAdd, polyNeg, bivEval, polyEval]
  ring

lemma fy_eval (c : FunctionCalculator) (b x y : ℚ) :
    bivEval (f_y c b) x y = b * y ^ 2 - b * y * c.min_y := by
  simp [f_y, bivSub, bivMul, bivAdd, bivNeg, bivC, bivY,
    polyMul, polyAdd, polyNeg, bivEval, polyEval]
  ring

lemma fxx_eval (c : FunctionCalculator) (a x y : ℚ) :
    bivEval (f_xx c a) x y = 2 * a * x - a * c.max_x := by
  simp [f_xx, f_x, bivDiffX, bivDiffXAux, bivSub, bivMul, bivAdd, bivNeg, bivC, bivX,
    polyMul, polyAdd, polyNeg, bivEval, polyEval]
  ring

lemma dxy_eval (c : FunctionCalculator) (a b x y : ℚ) :
    bivEval (d_xy c a b) x y
      = (2 * a * x - a * c.max_x) * (2 * b * y - b * c.min_y) := by
  simp [d_xy, f_xx, f_yy, f_xy, f_x, f_y, bivDiffX, bivDiffXAux, bivDiffY, polyDeriv,
    polyDerivAux, bivSub, bivMul, bivAdd, bivNeg, bivC, bivX, bivY,
    polyMul, polyAdd, polyNeg, bivEval, polyEval]
  ring

lemma gf_eval (c : FunctionCalculator) (a b x y : ℚ) :
    bivEval (general_form c a b) x y
      = a * x ^ 3 / 3 - a * c.max_x * x ^ 2 / 2 + b * y ^ 3 / 3 - b * c.min_y * y ^ 2 / 2 := by
  simp [general_form, f_x, f_y, bivIntX, bivIntXAux, bivIntY, polyIntegrate, polyIntAux,
    bivSub, bivMul, bivAdd, bivNeg, bivC, bivX, bivY, polyMul, polyAdd, polyNeg,
    bivEval, polyEval]
  ring

lemma evaluated_funcs_true_iff (c : FunctionCalculator) (a b : ℚ) :
    evaluated_funcs c a b = true ↔
      (f_xx_at_max c a b < 0 ∧ f_xx_at_min c a b > 0 ∧ f_xx_at_saddle c a b ≠ 0 ∧
        d_at_max c a b > 0 ∧ d_at_min c a b > 0 ∧ d_at_saddle c a b < 0) := by
  simp [evaluated_funcs, Bool.and_eq_true, decide_eq_true_eq, and_assoc]

lemma f_xx_at_max_eq (c : FunctionCalculator) (a b : ℚ) :
    f_xx_at_max c a b = a * c.max_x := by
  rw [f_xx_at_max, fxx_eval]; ring

lemma evaluated_funcs_of_max_x_eq_zero (c : FunctionCalculator) (h : c.max_x = 0)
    (a b : ℚ) : evaluated_funcs c a b = false := by
  rw [← Bool.not_eq_true, evaluated_funcs_true_iff]
  intro hcon
  have h1 := hcon.1
  rw [f_xx_at_max_eq, h, mul_zero] at h1
  exact absurd h1 (lt_irrefl 0)

lemma evaluated_funcs_a_zero (c : FunctionCalculator) (b : ℚ) :
    evaluated_funcs c 0 b = false := by
  rw [← Bool.not_eq_true, evaluated_funcs_true_iff]
  intro hcon
  have h1 := hcon.1
  rw [f_xx_at_max_eq, zero_mul] at h1
  exact absurd h1 (lt_irrefl 0)

/-! ### Enumeration lemmas -/

lemma zip_map_range :
    ∀ (m k : ℕ) (f g : ℕ → ℤ),
      (((List.range m).map f).zip ((List.range k).map g))
        = (List.range (min m k)).map (fun i => (f i, g i))
  | 0, _, _, _ => by simp
  | _ + 1, 0, _, _ => by simp
  | m + 1, k + 1, f, g => by
    rw [List.range_succ_eq_map, List.range_succ_eq_map, Nat.succ_min_succ,
      List.range_succ_eq_map]
    simp only [List.map_cons, List.map_map, List.zip_cons_cons]
    rw [zip_map_range m k]
    simp [List.map_map, Function.comp_def]

lemma flatMap_map_list {α β γ : Type} (l : List α) (f : α → β) (g : β → List γ) :
    (l.map f).flatMap g = l.flatMap (fun x => g (f x)) := by
  induction l with
  | nil => rfl
  | cons a t ih => simp [List.flatMap_cons, ih]

/-- The number sequence in closed form: blocks `i, -(i+1)` for `i < n`,
then the appended `n`. -/
lemma interleaved_eq (n : ℕ) :
    interleaved n
      = ((List.range n).flatMap fun i => [(i : ℤ), -(i : ℤ) - 1]) ++ [(n : ℤ)] := by
  rw [interleaved, rangeList, negRangeList, zip_map_range,
    min_eq_right (Nat.le_succ n), flatMap_map_list]

lemma blocks_length (n : ℕ) :
    ((List.range n).flatMap fun i => [(i : ℤ), -(i : ℤ) - 1]).length = 2 * n := by
  induction n with
  | zero => rfl
  | succ m ih =>
    rw [List.range_succ, List.flatMap_append, List.length_append, ih]
    simp only [List.flatMap_cons, List.flatMap_nil, List.append_nil, List.length_cons,
      List.length_nil]
    ring

lemma interleaved_length (n : ℕ) : (interleaved n).length = 2 * n + 1 := by
  rw [interleaved_eq, List.length_append, blocks_length]
  rfl

lemma blocks_count (n : ℕ) (k : ℤ) :
    ((List.range n).flatMap fun i => [(i : ℤ), -(i : ℤ) - 1]).count k
      = if (0 ≤ k ∧ k < (n : ℤ)) ∨ (-(n : ℤ) ≤ k ∧ k < 0) then 1 else 0 := by
  induction n with
  | zero =>
    simp only [List.range_zero, List.flatMap_nil, List.count_nil]
    split_ifs with h
    · exfalso; omega
    · rfl
  | succ m ih =>
    rw [List.range_succ, List.flatMap_append, List.count_append, ih]
    simp only [List.flatMap_cons, List.flatMap_nil, List.append_nil, List.count_cons,
      List.count_nil, beq_iff_eq]
    split_ifs <;> omega

lemma interleaved_count (n : ℕ) (k : ℤ) :
    (interleaved n).count k = if -(n : ℤ) ≤ k ∧ k ≤ (n : ℤ) then 1 else 0 := by
  rw [interleaved_eq, List.count_append, blocks_count]
  simp only [List.count_cons, List.count_nil, beq_iff_eq]
  split_ifs <;> omega

lemma product_length (l₁ l₂ : List ℤ) :
    (l₁.flatMap fun a => l₂.map fun b => (a, b)).length = l₁.length * l₂.length := by
  induction l₁ with
  | nil => simp
  | cons a t ih =>
    simp only [List.flatMap_cons, List.length_append, List.length_map, List.length_cons, ih]
    ring

lemma get_values_length (n : ℤ) (hn : 0 ≤ n) :
    (get_values n).length = (2 * n.toNat + 1) ^ 2 := by
  rw [get_values, if_neg (not_lt.mpr hn), product_length, interleaved_length]
  ring

lemma product_getElem? :
    ∀ (l₁ : List ℤ) (l₂ : List ℤ) (i j : ℕ) (hi : i < l₁.length) (hj : j < l₂.length),
      (l₁.flatMap fun a => l₂.map fun b => (a, b))[i * l₂.length + j]?
        = some (l₁[i], l₂[j])
  | [], _, i, _, hi, _ => absurd hi (Nat.not_lt_zero i)
  | a :: t, l₂, 0, j, _, hj => by
    have hj' : j < (l₂.map fun b => (a, b)).length := by
      rw [List.length_map]; exact hj
    simp only [List.flatMap_cons, Nat.zero_mul, Nat.zero_add]
    rw [List.getElem?_append_left hj', List.getElem?_map, List.getElem?_eq_getElem hj]
    rfl
  | a :: t, l₂, i + 1, j, hi, hj => by
    have hlen : (l₂.map fun b => (a, b)).length = l₂.length := List.length_map _ _
    have hidx : (i + 1) * l₂.length + j = l₂.length + (i * l₂.length + j) := by ring
    simp only [List.flatMap_cons]
    rw [hidx, ← hlen]
    rw [List.getElem?_append_right (Nat.le_add_right _ _), Nat.add_sub_cancel_left]
    rw [hlen]
    exact product_getElem? t l₂ i j (Nat.lt_of_succ_lt_succ hi) hj

/-! ### Search-loop lemmas -/

lemma solveAux_cons_true (c : FunctionCalculator) (a b : ℤ) (l : List (ℤ × ℤ))
    (h : evaluated_funcs c (a : ℚ) (b : ℚ) = true) :
    solveAux c ((a, b) :: l) = Solution.found (general_form c (a : ℚ) (b : ℚ)) := by
  simp [solveAux, h]

lemma solveAux_skip (c : FunctionCalculator) (l₁ l₂ : List (ℤ × ℤ))
    (h : ∀ p ∈ l₁, evaluated_funcs c (p.1 : ℚ) (p.2 : ℚ) = false) :
    solveAux c (l₁ ++ l₂) = solveAux c l₂ := by
  induction l₁ with
  | nil => rfl
  | cons p t ih =>
    obtain ⟨a, b⟩ := p
    have hp := h (a, b) (List.mem_cons_self _ _)
    simp only [List.cons_append, solveAux, hp, Bool.false_eq_true, if_false]
    exact ih (fun q hq => h q (List.mem_cons_of_mem _ hq))

lemma solveAux_notFound (c : FunctionCalculator) (l : List (ℤ × ℤ))
    (h : ∀ a b : ℚ, evaluated_funcs c a b = false) :
    solveAux c l = Solution.notFound := by
  induction l with
  | nil => rfl
  | cons p t ih =>
    obtain ⟨a, b⟩ := p
    simp only [solveAux, h, Bool.false_eq_true, if_false]
    exact ih

lemma solveAux_print_irrel (mx my nx ny sx sy : ℚ) (f₁ f₂ : Bool) :
    ∀ l : List (ℤ × ℤ),
      solveAux (FunctionCalculator.mk mx my nx ny sx sy f₁) l
        = solveAux (FunctionCalculator.mk mx my nx ny sx sy f₂) l
  | [] => rfl
  | (a, b) :: t => by
    have he : evaluated_funcs (FunctionCalculator.mk mx my nx ny sx sy f₁) (a : ℚ) (b : ℚ)
        = evaluated_funcs (FunctionCalculator.mk mx my nx ny sx sy f₂) (a : ℚ) (b : ℚ) := rfl
    have hg : general_form (FunctionCalculator.mk mx my nx ny sx sy f₁) (a : ℚ) (b : ℚ)
        = general_form (FunctionCalculator.mk mx my nx ny sx sy f₂) (a : ℚ) (b : ℚ) := rfl
    simp only [solveAux, he, hg]
    rw [solveAux_print_irrel mx my nx ny sx sy f₁ f₂ t]

/-- The example calculator accepts the candidate `(-1, -1)`. -/
lemma exampleCalc_accepts :
    evaluated_funcs exampleCalc ((-1 : ℤ) : ℚ) ((-1 : ℤ) : ℚ) = true := by
  rw [evaluated_funcs_true_iff]
  refine ⟨?_, ?_, ?_, ?_, ?_, ?_⟩ <;>
    simp only [f_xx_at_max, f_xx_at_min, f_xx_at_saddle, d_at_max, d_at_min, d_at_saddle,
      fxx_eval, dxy_eval, exampleCalc] <;>
    norm_num

/-- The example calculator rejects every candidate tried before `(-1, -1)`. -/
lemma exampleCalc_rejects_before :
    ∀ p ∈ [((0 : ℤ), (0 : ℤ)), (0, -1), (0, 1), (-1, 0)],
      evaluated_funcs exampleCalc (p.1 : ℚ) (p.2 : ℚ) = false := by
  intro p hp
  fin_cases hp <;>
    · rw [← Bool.not_eq_true, evaluated_funcs_true_iff]
      simp only [f_xx_at_max, f_xx_at_min, f_xx_at_saddle, d_at_max, d_at_min, d_at_saddle,
        fxx_eval, dxy_eval, exampleCalc]
      norm_num

/-! ### The claims -/

/-- C1 (counterexample): the claim that the candidate sequence has length
`(2n+2)²` is already false at the bound `n = 0`, where the sequence is the
single pair `(0, 0)`: the `zip` interleaving truncates at the shorter range,
so no duplicated trailing `n` exists. -/
theorem claim1_cex : ¬ ((get_values 0).length = (2 * 0 + 2) ^ 2) := by decide

/-- C1 (amended): for every bound `n ≥ 0` the interleaving truncates at the
shorter range, dropping the final `n` of `range(0..=n)` before `n` is appended
once at the end, so the number sequence has length `2n+1` (no duplicate) and
the candidate sequence has length exactly `(2n+1)²`. -/
theorem claim1_thm (n : ℤ) (hn : 0 ≤ n) :
    (interleaved n.toNat).length = 2 * n.toNat + 1 ∧
      (get_values n).length = (2 * n.toNat + 1) ^ 2 :=
  ⟨interleaved_length n.toNat, get_values_length n hn⟩

/-- C1 (witness): the amended claim evaluated at the bound `3`. -/
theorem claim1_witness :
    0 ≤ (3 : ℤ) ∧
      ((interleaved (3 : ℤ).toNat).length = 2 * (3 : ℤ).toNat + 1 ∧
        (get_values 3).length = (2 * (3 : ℤ).toNat + 1) ^ 2) :=
  ⟨by decide, claim1_thm 3 (by decide)⟩

/-- C2: a candidate `(a, b)` is accepted exactly when the six predicates hold
(`f_xx` at the maximum `< 0`, at the minimum `> 0`, at the saddle `≠ 0`, and
the discriminant at the maximum `> 0`, at the minimum `> 0`, at the saddle
`< 0`), and on acceptance the loop immediately returns `general_form` with the
accepted `a, b` substituted, whatever candidates remain. -/
theorem claim2_thm (c : FunctionCalculator) (a b : ℤ) (l : List (ℤ × ℤ)) :
    (evaluated_funcs c (a : ℚ) (b : ℚ) = true ↔
      (f_xx_at_max c (a : ℚ) (b : ℚ) < 0 ∧ f_xx_at_min c (a : ℚ) (b : ℚ) > 0 ∧
        f_xx_at_saddle c (a : ℚ) (b : ℚ) ≠ 0 ∧ d_at_max c (a : ℚ) (b : ℚ) > 0 ∧
        d_at_min c (a : ℚ) (b : ℚ) > 0 ∧ d_at_saddle c (a : ℚ) (b : ℚ) < 0)) ∧
    (evaluated_funcs c (a : ℚ) (b : ℚ) = true →
      solveAux c ((a, b) :: l) = Solution.found (general_form c (a : ℚ) (b : ℚ))) :=
  ⟨evaluated_funcs_true_iff c (a : ℚ) (b : ℚ), solveAux_cons_true c a b l⟩

/-- C2 (witness): the example calculator accepts `(-1, -1)` and the loop stops
there at once. -/
theorem claim2_witness :
    evaluated_funcs exampleCalc ((-1 : ℤ) : ℚ) ((-1 : ℤ) : ℚ) = true ∧
      solveAux exampleCalc [(-1, -1)]
        = Solution.found (general_form exampleCalc ((-1 : ℤ) : ℚ) ((-1 : ℤ) : ℚ)) :=
  ⟨exampleCalc_accepts,
    (claim2_thm exampleCalc (-1) (-1) []).2 exampleCalc_accepts⟩

/-- C3: candidates are the Cartesian square of the number sequence in
row-major order (the pair at flat index `i·L + j` is the `i`-th and `j`-th
numbers, the first coordinate varying slowest), and if the prefix `l₁` of the
enumeration rejects every pair while `(a, b)` is accepted, `solve` returns the
solution built from `(a, b)`, never examining the candidates after it. -/
theorem claim3_thm (c : FunctionCalculator) (n : ℤ) (hn : 0 ≤ n) :
    (∀ (i j : ℕ) (hi : i < (interleaved n.toNat).length)
        (hj : j < (interleaved n.toNat).length),
      (get_values n)[i * (interleaved n.toNat).length + j]?
        = some ((interleaved n.toNat)[i], (interleaved n.toNat)[j])) ∧
    (∀ (l₁ : List (ℤ × ℤ)) (a b : ℤ) (l₂ : List (ℤ × ℤ)),
      get_values n = l₁ ++ (a, b) :: l₂ →
      (∀ p ∈ l₁, evaluated_funcs c (p.1 : ℚ) (p.2 : ℚ) = false) →
      evaluated_funcs c (a : ℚ) (b : ℚ) = true →
      (solve c n).1 = Solution.found (general_form c (a : ℚ) (b : ℚ))) := by
  constructor
  · intro i j hi hj
    rw [get_values, if_neg (not_lt.mpr hn)]
    exact product_getElem? _ _ i j hi hj
  · intro l₁ a b l₂ hsplit hrej hacc
    show solveAux c (get_values n) = _
    rw [hsplit, solveAux_skip c l₁ _ hrej, solveAux_cons_true c a b l₂ hacc]

/-- C3 (witness): at bound `1` the ninth candidate `(1, 1)` sits at flat index
`2·3 + 2`, and the example calculator rejects the first four candidates, then
accepts `(-1, -1)` and returns its general form. -/
theorem claim3_witness :
    (get_values 1)[2 * (interleaved (1 : ℤ).toNat).length + 2]? = some (1, 1) ∧
      (solve exampleCalc 1).1
        = Solution.found (general_form exampleCalc ((-1 : ℤ) : ℚ) ((-1 : ℤ) : ℚ)) := by
  constructor
  · exact ((claim3_thm exampleCalc 1 (by decide)).1 2 2 (by decide) (by decide)).trans
      (by decide)
  · exact (claim3_thm exampleCalc 1 (by decide)).2
      [(0, 0), (0, -1), (0, 1), (-1, 0)] (-1) (-1) [(-1, 1), (1, 0), (1, -1), (1, 1)]
      (by decide) exampleCalc_rejects_before exampleCalc_accepts

/-- C4: `general_form` is by construction the sum of the antiderivative of
`f_y` in `y` and of `f_x` in `x`, both with zero constant of integration, and
as a function it is the polynomial
`a·x³/3 − a·max_x·x²/2 + b·y³/3 − b·min_y·y²/2`, where
`f_x = a·x² − a·x·max_x` and `f_y = b·y² − b·y·min_y`. -/
theorem claim4_thm (c : FunctionCalculator) (a b x y : ℚ) :
    general_form c a b = bivAdd (bivIntY (f_y c b)) (bivIntX (f_x c a)) ∧
      bivEval (f_x c a) x y = a * x ^ 2 - a * x * c.max_x ∧
      bivEval (f_y c b) x y = b * y ^ 2 - b * y * c.min_y ∧
      bivEval (general_form c a b) x y
        = a * x ^ 3 / 3 - a * c.max_x * x ^ 2 / 2 + b * y ^ 3 / 3 - b * c.min_y * y ^ 2 / 2 :=
  ⟨rfl, fx_eval c a x y, fy_eval c b x y, gf_eval c a b x y⟩

/-- C5: for every bound `n < 0` the candidate sequence is empty and `solve`
returns the not-found sentinel immediately. -/
theorem claim5_thm (c : FunctionCalculator) (n : ℤ) (hn : n < 0) :
    get_values n = [] ∧ (solve c n).1 = Solution.notFound := by
  have h : get_values n = [] := by rw [get_values, if_pos hn]
  exact ⟨h, by show solveAux c (get_values n) = _; rw [h]; rfl⟩

/-- C5 (witness): the claim evaluated at the bound `-1`. -/
theorem claim5_witness :
    (-1 : ℤ) < 0 ∧
      (get_values (-1) = [] ∧ (solve exampleCalc (-1)).1 = Solution.notFound) :=
  ⟨by decide, claim5_thm exampleCalc (-1) (by decide)⟩

/-- C6: at bound `0` the only candidate examined is `(0, 0)`; with `a = 0` the
second derivative `f_xx` is identically zero, so the strict first predicate
fails and `solve` returns the not-found sentinel for every calculator. -/
theorem claim6_thm :
    get_values 0 = [(0, 0)] ∧
      (∀ (c : FunctionCalculator) (x y : ℚ), bivEval (f_xx c 0) x y = 0) ∧
      ∀ c : FunctionCalculator, (solve c 0).1 = Solution.notFound := by
  have h0 : get_values 0 = [(0, 0)] := by decide
  refine ⟨h0, fun c x y => by rw [fxx_eval]; ring, fun c => ?_⟩
  show solveAux c (get_values 0) = _
  rw [h0]
  have hz : ((0 : ℤ) : ℚ) = 0 := by norm_num
  simp only [solveAux, hz, evaluated_funcs_a_zero, Bool.false_eq_true, if_false]

/-- C7: the returned Solution and the predicate evaluation are identical
whether the diagnostic-printing flag is set or not; only the second (printed)
component of `solve`'s result can differ. -/
theorem claim7_thm (mx my nx ny sx sy : ℚ) (f₁ f₂ : Bool) (n : ℤ) (a b : ℚ) :
    (solve (FunctionCalculator.mk mx my nx ny sx sy f₁) n).1
        = (solve (FunctionCalculator.mk mx my nx ny sx sy f₂) n).1 ∧
      evaluated_funcs (FunctionCalculator.mk mx my nx ny sx sy f₁) a b
        = evaluated_funcs (FunctionCalculator.mk mx my nx ny sx sy f₂) a b :=
  ⟨solveAux_print_irrel mx my nx ny sx sy f₁ f₂ (get_values n), rfl⟩

/-- C8: the constructor succeeds on any three 2-element pairs, storing exactly
their coordinates, and fails with the invalid-argument (unpacking) error as
soon as one of the three arguments is not a 2-element pair — no partially
constructed calculator is ever produced. -/
theorem claim8_thm (M N S : List ℚ) (fl : Bool) :
    (∀ mx my nx ny sx sy : ℚ, M = [mx, my] → N = [nx, ny] → S = [sx, sy] →
      FunctionCalculator.init M N S fl
        = Except.ok (FunctionCalculator.mk mx my nx ny sx sy fl)) ∧
    (¬ (M.length = 2 ∧ N.length = 2 ∧ S.length = 2) →
      FunctionCalculator.init M N S fl = Except.error InitError.invalidArgument) := by
  constructor
  · rintro mx my nx ny sx sy rfl rfl rfl
    rfl
  · intro h
    rcases M with _ | ⟨m1, _ | ⟨m2, _ | ⟨m3, mt⟩⟩⟩ <;>
      rcases N with _ | ⟨n1, _ | ⟨n2, _ | ⟨n3, nt⟩⟩⟩ <;>
        rcases S with _ | ⟨s1, _ | ⟨s2, _ | ⟨s3, st⟩⟩⟩ <;>
          first
            | rfl
            | (exfalso; exact h (by simp))

/-- C8 (witness): the example points construct successfully; a 1-element first
argument fails with the invalid-argument error. -/
theorem claim8_witness :
    FunctionCalculator.init [25, 15] [-5, -12] [0, 0] false
        = Except.ok (FunctionCalculator.mk 25 15 (-5) (-12) 0 0 false) ∧
      FunctionCalculator.init [1] [3, 4] [5, 6] false
        = Except.error InitError.invalidArgument :=
  ⟨(claim8_thm [25, 15] [-5, -12] [0, 0] false).1 25 15 (-5) (-12) 0 0 rfl rfl rfl,
    (claim8_thm [1] [3, 4] [5, 6] false).2 (by simp)⟩

/-- C9: for every bound `n ≥ 0` the enumerator yields exactly `(2n+1)²`
candidate pairs; the number sequence is the blocks `i, −(i+1)` for `i < n`
followed by the single appended `n` (the `zip` truncates at the shorter range,
dropping `n` before it is re-appended), and it contains every integer of
`[−n, n]` exactly once — no duplicated trailing `n`. -/
theorem claim9_thm (n : ℤ) (hn : 0 ≤ n) :
    (get_values n).length = (2 * n.toNat + 1) ^ 2 ∧
      interleaved n.toNat
        = ((List.range n.toNat).flatMap fun i => [(i : ℤ), -(i : ℤ) - 1]) ++ [(n.toNat : ℤ)] ∧
      ∀ k : ℤ, (interleaved n.toNat).count k = if -n ≤ k ∧ k ≤ n then 1 else 0 := by
  refine ⟨get_values_length n hn, interleaved_eq n.toNat, fun k => ?_⟩
  rw [interleaved_count, Int.toNat_of_nonneg hn]

/-- C9 (witness): at bound `2` there are `25` candidates and the value `2`
(the re-appended bound) occurs exactly once in the number sequence. -/
theorem claim9_witness :
    0 ≤ (2 : ℤ) ∧ (get_values 2).length = (2 * (2 : ℤ).toNat + 1) ^ 2 ∧
      (interleaved (2 : ℤ).toNat).count 2 = 1 :=
  ⟨by decide, (claim9_thm 2 (by decide)).1,
    ((claim9_thm 2 (by decide)).2.2 2).trans (by decide)⟩

/-- C10: whenever the maximum's `x`-coordinate is `0`, the cached
`f_xx`-at-maximum expression evaluates to `a·max_x = 0` for every candidate,
the first predicate `f_xx_at_max < 0` never holds, and `solve` returns the
not-found sentinel for every bound. -/
theorem claim10_thm (c : FunctionCalculator) (h : c.max_x = 0) :
    (∀ a b : ℚ, f_xx_at_max c a b = 0 ∧ evaluated_funcs c a b = false) ∧
      ∀ n : ℤ, (solve c n).1 = Solution.notFound := by
  refine ⟨fun a b => ⟨by rw [f_xx_at_max_eq, h, mul_zero],
    evaluated_funcs_of_max_x_eq_zero c h a b⟩, fun n => ?_⟩
  exact solveAux_notFound c (get_values n) (evaluated_funcs_of_max_x_eq_zero c h)

/-- C10 (witness): the claim evaluated on a calculator with `max_x = 0` at the
bound `1`. -/
theorem claim10_witness :
    zeroMaxCalc.max_x = 0 ∧ f_xx_at_max zeroMaxCalc 5 4 = 0 ∧
      (solve zeroMaxCalc 1).1 = Solution.notFound :=
  ⟨rfl, ((claim10_thm zeroMaxCalc rfl).1 5 4).1, (claim10_thm zeroMaxCalc rfl).2 1⟩

end MFC

